import Mathlib

/-!
Verification of the rbd-qemu provisioning core
(src/terraform-provider-rbdqemu.go).

The Go source is shallowly embedded: every remote command execution is an
oracle value of type `SshResult` (the stdout / stderr / fault triple that
`f_ssh` would hand back for that call site), and each provider function is
translated into a pure Lean function over those oracles.  Go `error` values
become `Option String` (`none` = nil), Go `int` becomes `Int` (unbounded;
no claim exercises 64-bit overflow), and the byte-level string helpers the
source leans on (`strings.Fields`, `strings.Split`, `regexp "[ \t]+"`.Split,
`strconv.Atoi` with its error ignored) are reimplemented structurally over
`List Char` so that every definition evaluates by kernel reduction.
-/

namespace RbdQemu

/-- Split a character list at every separator character, keeping empty
pieces, as Go `strings.Split` does for a one-character separator.  `acc`
holds the current piece, reversed. -/
def splitCharsAux (p : Char → Bool) : List Char → List Char → List String
  | [], acc => [String.mk acc.reverse]
  | c :: cs, acc =>
      if p c then String.mk acc.reverse :: splitCharsAux p cs []
      else splitCharsAux p cs (c :: acc)

/-- Go `strings.Split(s, sep)` for a one-character separator class: empty
pieces between consecutive separators are kept, and splitting the empty
string yields one empty piece. -/
def strSplit (p : Char → Bool) (s : String) : List String :=
  splitCharsAux p s.data []

/-- Go `strings.Fields`: split around runs of whitespace, dropping all empty
pieces (source line 408). -/
def goFields (s : String) : List String :=
  (strSplit (fun c => c.isWhitespace) s).filter (fun t => t != "")

/-- Go `regexp.MustCompile("[ \t]+").Split(s, -1)` (source line 252): pieces
between maximal runs of spaces and tabs.  Unlike `goFields`, a leading or a
trailing separator run contributes an empty piece. -/
def wsSplit (s : String) : List String :=
  match strSplit (fun c => c == ' ' || c == '\t') s with
  | [] => [""]
  | [x] => [x]
  | x :: rest => x :: (rest.dropLast.filter (fun t => t != "")) ++ [rest.getLastD ""]

/-- The value of an all-digit character run, `none` when the run is empty or
contains a non-digit. -/
def parseDigits (l : List Char) : Option Nat :=
  if l ≠ [] ∧ l.all (fun c => c.isDigit) then
    some (l.foldl (fun a c => a * 10 + (c.toNat - 48)) 0)
  else none

/-- Go `strconv.Atoi` with its error discarded, as the source does at lines
253 and 410 (`avail_kb, _ :=` / `pid, _ :=`): the parsed integer when the
whole string is an optionally signed digit run, otherwise the zero value 0
that Go returns together with a syntax error. -/
def atoi (s : String) : Int :=
  match s.data with
  | '-' :: rest =>
      match parseDigits rest with
      | some n => -(n : Int)
      | none => 0
  | '+' :: rest =>
      match parseDigits rest with
      | some n => (n : Int)
      | none => 0
  | l =>
      match parseDigits l with
      | some n => (n : Int)
      | none => 0

/-- The buffer accumulation loop of `f_ssh` (source lines 168-191): lines are
joined with a newline, except that a line arriving while the buffer is still
empty replaces the buffer. -/
def joinLines (lines : List String) : String :=
  lines.foldl (fun acc line => if acc.length = 0 then line else acc ++ "\n" ++ line) ""

/-- What the external ssh process did for one `f_ssh` call: either
`exec.Command(...).Start()` itself failed (the ssh binary could not be
launched, source line 158-162), or the session ran and produced the given
stdout lines, stderr lines and `ssh.Wait()` result (`none` = the remote
command exited zero). -/
inductive SshOutcome where
  | startFail : SshOutcome
  | ran : List String → List String → Option String → SshOutcome

/-- Embedding of `f_ssh` (source lines 146-194) over the outcome of the
underlying ssh process.  When `Start()` fails the Go code logs a FATAL line
and returns `"", "", nil` — an empty result with a NIL fault.  Otherwise it
accumulates the stdout and stderr lines and returns `ssh.Wait()` as the
fault. -/
def f_ssh : SshOutcome → String × String × Option String
  | SshOutcome.startFail => ("", "", none)
  | SshOutcome.ran outLines errLines waitErr =>
      (joinLines outLines, joinLines errLines, waitErr)

/-- The triple a caller of `f_ssh` receives: captured stdout, captured
stderr, and the completion fault (`none` = nil error).  Callers are modelled
over these triples directly, one oracle value per `f_ssh` call site. -/
structure SshResult where
  out : String
  err : String
  fault : Option String

/-- The Go condition `(fault != nil) || (len(err_buf) > 0)` that both
`f_getHypervisor` (line 249) and the claims' "fails its probe" refer to. -/
def probeBad (r : SshResult) : Bool :=
  r.fault.isSome || r.err.length != 0

/-- Embedding of `f_rbdExists` (source lines 204-227).  `r` is the result of
`f_ssh(G_ceph_hosts[0], "rbd ls -p <pool>")`.  A fault or non-empty stderr is
a hard error; otherwise stdout is split on newlines and searched for an exact
match of `img_name`. -/
def f_rbdExists (img_name : String) (r : SshResult) : Bool × Option String :=
  match r.fault with
  | some f => (false, some ((("ssh fault - ") : String) ++ f))
  | none =>
      if r.err.length > 0 then (false, some ((("rbd fault - ") : String) ++ r.err))
      else ((strSplit (fun c => c == '\n') r.out).any (fun v => v == img_name), none)

/-- The available-kB figure `f_getHypervisor` extracts from one host's probe
output (source lines 252-253): whitespace-collapse the stdout, take token
position 1, parse it with `Atoi`, error ignored. -/
def parsedKB (r : SshResult) : Int :=
  atoi ((wsSplit r.out).getD 1 "")

/-- The host scan of `f_getHypervisor` (source lines 241-259): walk the
hypervisor list with the running `(max_avail, best_host)` pair, skipping
hosts whose probe failed, and replacing the pair only on a strictly greater
available-kB figure. -/
def ghScan : Int × String → List (String × SshResult) → Int × String
  | acc, [] => acc
  | acc, (v, r) :: rest =>
      if probeBad r then ghScan acc rest
      else if parsedKB r > acc.1 then ghScan (parsedKB r, v) rest
      else ghScan acc rest

/-- Embedding of `f_getHypervisor` (source lines 234-267).  `probes` pairs
each configured hypervisor host, in order, with the result of its
`grep MemAvailable /proc/meminfo` probe.  After the scan the best host is
returned only when `max_avail / 1024 > mem_mb` (Go integer division);
otherwise the empty string. -/
def f_getHypervisor (mem_mb : Int) (probes : List (String × SshResult)) : String :=
  let acc := ghScan (0, "") probes
  if acc.1 / 1024 > mem_mb then acc.2 else ""

/-- Embedding of `rsRbdCreate` (source lines 271-322).  `r1` is the result of
the combined `rbd create && rbd feature disable` command on the first ceph
host, `probes` feeds the `f_getHypervisor 1` call, and `r2` is the result of
the `qemu-img create` command on the chosen hypervisor (consulted only when
one was chosen).  Returns `(id the function set, error it returned)`:
`d.SetId` is modelled as the first component becoming `some (pool ++ "/" ++
name)`. -/
def rsRbdCreate (osd_pool img_name : String) (r1 : SshResult)
    (probes : List (String × SshResult)) (r2 : SshResult) :
    Option String × Option String :=
  match r1.fault with
  | some f => (none, some f)
  | none =>
      if r1.err.length > 0 then (none, some r1.err)
      else
        let id := some (osd_pool ++ (("/") : String) ++ img_name)
        let h := f_getHypervisor 1 probes
        if h.length < 1 then (id, none)
        else
          match r2.fault with
          | some f => (id, some f)
          | none => if r2.err.length > 0 then (id, some r2.err) else (id, none)

/-- Embedding of `rsRbdRead` (source lines 324-335): the id is set to
`pool/name` exactly when `f_rbdExists` reported `(true, nil)`, and the
returned error is always nil. -/
def rsRbdRead (osd_pool img_name : String) (r : SshResult) :
    Option String × Option String :=
  let res := f_rbdExists img_name r
  if res.2 = none ∧ res.1 = true then
    (some (osd_pool ++ (("/") : String) ++ img_name), none)
  else (none, none)

/-- The derived VM id (source line 382): the fixed tag `"tf"` joined to the
logical name with a dash. -/
def derivedId (name : String) : String :=
  (("tf-") : String) ++ name

/-- The token-shape test of `f_vmExists` (source lines 409-412) as one
boolean: more than 3 whitespace tokens, token 2 equal to `-name`, token 3
equal to the derived id. -/
def vmTokenMatch (name : String) (r : SshResult) : Bool :=
  let tokens := goFields r.out
  decide (3 < tokens.length) && (tokens.getD 2 "" == (("-name") : String))
    && (tokens.getD 3 "" == derivedId name)

/-- Embedding of `f_vmExists` (source lines 380-423).  `probes` pairs each
hypervisor host, in order, with the result of the `ps axwww ... | grep`
command on it.  A fault or non-empty stderr aborts the whole search with that
error; a stdout whose tokens pass the shape test yields `(host, pid, nil)`
with the pid from token 0; anything else moves on to the next host; an
exhausted list yields `("", 0, nil)`. -/
def f_vmExists (name : String) : List (String × SshResult) → String × Int × Option String
  | [] => ("", 0, none)
  | (v, r) :: rest =>
      match r.fault with
      | some f => ("", 0, some f)
      | none =>
          if r.err.length > 0 then ("", 0, some r.err)
          else
            let tokens := goFields r.out
            if 3 < tokens.length then
              if tokens.getD 2 "" == (("-name") : String)
                  && tokens.getD 3 "" == derivedId name then
                (v, atoi (tokens.getD 0 ""), none)
              else f_vmExists name rest
            else f_vmExists name rest

/-- Embedding of `rsVmRead` (source lines 485-493).  The source sets the id
only under `(fault != nil) && (len(hypervisor) > 0)`; the returned error is
always nil.  Result is `(id set, error returned)`. -/
def rsVmRead (name : String) (probes : List (String × SshResult)) :
    Option String × Option String :=
  let res := f_vmExists name probes
  if res.2.2.isSome ∧ res.1.length > 0 then (some (derivedId name), none)
  else (none, none)

/-- Embedding of `rsVmDelete` (source lines 505-520).  `killRes` is the
oracle for the `kill <pid>` command (consulted only when one is issued).
Result is `(error returned, list of (host, command) kill invocations
issued)`, the second component making the remote side effect observable.
The Go format string at line 513 has four verbs but three arguments, so its
message ends in Go's `%!s(MISSING)` marker. -/
def rsVmDelete (name : String) (probes : List (String × SshResult))
    (killRes : SshResult) : Option String × List (String × String) :=
  let res := f_vmExists name probes
  let hypervisor := res.1
  let pid := res.2.1
  let fault := res.2.2
  if hypervisor.length > 0 ∧ pid > 1 ∧ fault = none then
    let cmd := (("kill ") : String) ++ toString pid
    match killRes.fault with
    | some _ =>
        (some ((("Failed to delete ") : String) ++ name ++ ((" pid:") : String)
          ++ toString pid ++ ((" on ") : String) ++ hypervisor
          ++ ((" - %!s(MISSING)") : String)), [(hypervisor, cmd)])
    | none => (none, [(hypervisor, cmd)])
  else (some ((("Could not locate VM and pid of ") : String) ++ name), [])

/-! ## Helper lemmas -/

/-- A string has length zero exactly when it is the empty string. -/
lemma string_length_zero (s : String) : s.length = 0 ↔ s = "" := by
  constructor
  · intro h
    cases s with
    | mk data =>
      cases data with
      | nil => rfl
      | cons c cs => simp [String.length] at h
  · intro h
    subst h
    rfl

/-- A string is non-empty exactly when its length is positive. -/
lemma string_ne_iff_length_pos (s : String) : s ≠ "" ↔ 0 < s.length := by
  rw [Nat.pos_iff_ne_zero, not_iff_not.symm, not_not, not_not]
  exact (string_length_zero s).symm

/-- When a probe is not bad, its fault is nil and its stderr empty. -/
lemma probeBad_false (r : SshResult) (h : probeBad r = false) :
    r.fault = none ∧ r.err.length = 0 := by
  unfold probeBad at h
  rw [Bool.or_eq_false_iff] at h
  refine ⟨?_, ?_⟩
  · cases hf : r.fault with
    | none => rfl
    | some f => rw [hf] at h; simp at h
  · have := h.2
    simpa using this

/-! ## Claim theorems -/

/-- C3 counterexample: when the external ssh process cannot even be launched
(`ssh.Start()` fails, source lines 158-162), `f_ssh` returns empty stdout,
empty stderr and a NIL fault — not the non-nil fault the claim asserts for a
session that could not be started. -/
theorem f_ssh_startFail_nil_fault_cex :
    f_ssh SshOutcome.startFail = ("", "", none) := rfl

/-- C3 (amended): `f_ssh` returns exactly the `ssh.Wait()` result as its
fault when the session started — non-nil exactly when the remote command
exited non-zero — with the stderr content never influencing the fault; when
the ssh process fails to launch it returns empty outputs and a nil fault. -/
theorem f_ssh_fault_characterization :
    f_ssh SshOutcome.startFail = ("", "", none) ∧
    (∀ outLines errLines waitErr,
      (f_ssh (SshOutcome.ran outLines errLines waitErr)).2.2 = waitErr) ∧
    (∀ outLines errLines errLines' waitErr,
      (f_ssh (SshOutcome.ran outLines errLines waitErr)).2.2
        = (f_ssh (SshOutcome.ran outLines errLines' waitErr)).2.2) :=
  ⟨rfl, fun _ _ _ => rfl, fun _ _ _ _ => rfl⟩

/-- C9: `rsRbdRead` always returns a nil error, and whenever the inventory
probe reports an error, or reports the image absent, the id is left unset —
the two situations are indistinguishable at the Read interface. -/
theorem rsRbdRead_always_nil_error :
    (∀ osd_pool img_name r, (rsRbdRead osd_pool img_name r).2 = none) ∧
    (∀ osd_pool img_name r, (f_rbdExists img_name r).2.isSome →
        rsRbdRead osd_pool img_name r = (none, none)) ∧
    (∀ osd_pool img_name r, (f_rbdExists img_name r).1 = false →
        rsRbdRead osd_pool img_name r = (none, none)) := by
  refine ⟨?_, ?_, ?_⟩
  · intro osd_pool img_name r
    simp only [rsRbdRead]
    split <;> rfl
  · intro osd_pool img_name r h
    simp only [rsRbdRead]
    rw [if_neg]
    intro hc
    rw [hc.1] at h
    simp at h
  · intro osd_pool img_name r h
    simp only [rsRbdRead]
    rw [if_neg]
    intro hc
    rw [h] at hc
    simp at hc

/-- C1: a transport fault or non-empty stderr from the primary
`rbd create && rbd feature disable` command makes `rsRbdCreate` return a
non-nil error with the id unset; once the primary command succeeds the id is
set to `pool/name` whatever the secondary `qemu-img create` step does; and a
fault or stderr from the secondary step still returns a non-nil error (with
the id set, by the previous part). -/
theorem rsRbdCreate_identity_policy :
    (∀ osd_pool img_name r1 probes r2, (r1.fault.isSome ∨ r1.err ≠ "") →
        (rsRbdCreate osd_pool img_name r1 probes r2).1 = none ∧
        (rsRbdCreate osd_pool img_name r1 probes r2).2.isSome) ∧
    (∀ osd_pool img_name r1 probes r2, r1.fault = none → r1.err = "" →
        (rsRbdCreate osd_pool img_name r1 probes r2).1
          = some (osd_pool ++ (("/") : String) ++ img_name)) ∧
    (∀ osd_pool img_name r1 probes r2, r1.fault = none → r1.err = "" →
        f_getHypervisor 1 probes ≠ "" → (r2.fault.isSome ∨ r2.err ≠ "") →
        (rsRbdCreate osd_pool img_name r1 probes r2).2.isSome) := by
  refine ⟨?_, ?_, ?_⟩
  · intro osd_pool img_name r1 probes r2 h
    cases hff : r1.fault with
    | some f => simp [rsRbdCreate, hff]
    | none =>
      have he : r1.err ≠ "" := by
        rcases h with hf | he
        · rw [hff] at hf; simp at hf
        · exact he
      have hl : 0 < r1.err.length := (string_ne_iff_length_pos _).mp he
      simp only [rsRbdCreate, hff]
      rw [if_pos hl]
      constructor
      · rfl
      · simp
  · intro osd_pool img_name r1 probes r2 hf he
    simp only [rsRbdCreate, hf, he]
    rw [if_neg (by decide : ¬(("" : String).length > 0))]
    split
    · rfl
    · split
      · rfl
      · split <;> rfl
  · intro osd_pool img_name r1 probes r2 hf he hh h2
    simp only [rsRbdCreate, hf, he]
    rw [if_neg (by decide : ¬(("" : String).length > 0))]
    have hlen : 0 < (f_getHypervisor 1 probes).length :=
      (string_ne_iff_length_pos _).mp hh
    rw [if_neg (by omega : ¬((f_getHypervisor 1 probes).length < 1))]
    cases hff : r2.fault with
    | some f => rfl
    | none =>
      have he2 : r2.err ≠ "" := by
        rcases h2 with h2 | h2
        · rw [hff] at h2; simp at h2
        · exact h2
      have hl2 : 0 < r2.err.length := (string_ne_iff_length_pos _).mp he2
      rw [if_pos hl2]
      rfl

/-- C7: whenever the process prober reports no hosting hypervisor,
`rsVmDelete` returns the non-nil "Could not locate" error and issues no kill
command — deleting an absent VM is a failure, never a silent no-op. -/
theorem rsVmDelete_absent_vm_error :
    (∀ name probes killRes, (f_vmExists name probes).1 = "" →
        rsVmDelete name probes killRes
          = (some ((("Could not locate VM and pid of ") : String) ++ name), [])) ∧
    rsVmDelete ("ghostVm") [] ⟨"", "", none⟩
      = (some ("Could not locate VM and pid of ghostVm"), []) := by
  refine ⟨?_, by decide⟩
  intro name probes killRes h
  simp only [rsVmDelete]
  rw [if_neg]
  intro hc
  rw [h] at hc
  simp at hc

/-! ## Process-prober lemmas -/

/-- One unfolding step of `f_vmExists` on a non-empty host list. -/
lemma f_vmExists_cons (name v : String) (r : SshResult)
    (rest : List (String × SshResult)) :
    f_vmExists name ((v, r) :: rest)
      = match r.fault with
        | some f => ("", 0, some f)
        | none =>
            if r.err.length > 0 then ("", 0, some r.err)
            else
              if 3 < (goFields r.out).length then
                if (goFields r.out).getD 2 "" == (("-name") : String)
                    && (goFields r.out).getD 3 "" == derivedId name then
                  (v, atoi ((goFields r.out).getD 0 ""), none)
                else f_vmExists name rest
              else f_vmExists name rest := rfl

/-- A clean probe whose tokens do not pass the shape test is skipped: the
search continues with the remaining hosts. -/
lemma f_vmExists_skip (name v : String) (r : SshResult)
    (rest : List (String × SshResult))
    (hb : probeBad r = false) (hm : vmTokenMatch name r = false) :
    f_vmExists name ((v, r) :: rest) = f_vmExists name rest := by
  obtain ⟨hf, he⟩ := probeBad_false r hb
  rw [f_vmExists_cons, hf]
  simp only
  rw [if_neg (by omega : ¬ r.err.length > 0)]
  by_cases ht : 3 < (goFields r.out).length
  · rw [if_pos ht]
    simp only [vmTokenMatch, Bool.and_eq_false_iff, decide_eq_false_iff_not] at hm
    rcases hm with (hm | hm) | hm
    · exact absurd ht hm
    · rw [if_neg (by rw [Bool.and_eq_true]; rintro ⟨h2, _⟩; rw [hm] at h2; exact Bool.false_ne_true h2)]
    · rw [if_neg (by rw [Bool.and_eq_true]; rintro ⟨_, h3⟩; rw [hm] at h3; exact Bool.false_ne_true h3)]
  · rw [if_neg ht]

/-- A clean probe whose tokens pass the shape test is accepted: host and the
pid parsed from token 0 are returned with a nil error. -/
lemma f_vmExists_found (name v : String) (r : SshResult)
    (rest : List (String × SshResult))
    (hb : probeBad r = false) (hm : vmTokenMatch name r = true) :
    f_vmExists name ((v, r) :: rest)
      = (v, atoi ((goFields r.out).getD 0 ""), none) := by
  obtain ⟨hf, he⟩ := probeBad_false r hb
  rw [f_vmExists_cons, hf]
  simp only [vmTokenMatch, Bool.and_eq_true, decide_eq_true_eq] at hm
  obtain ⟨⟨ht, h2⟩, h3⟩ := hm
  simp only
  rw [if_neg (by omega : ¬ r.err.length > 0), if_pos ht,
    if_pos (by rw [Bool.and_eq_true]; exact ⟨h2, h3⟩)]

/-- When every earlier host is clean with no token match and host `v`'s probe
is bad, the search aborts at `v` with that host's own error — the hosts of
`l₂` never influence the result. -/
lemma f_vmExists_abort (name : String) :
    ∀ (l₁ : List (String × SshResult)) (v : String) (r : SshResult)
      (l₂ : List (String × SshResult)),
      (∀ q ∈ l₁, probeBad q.2 = false ∧ vmTokenMatch name q.2 = false) →
      probeBad r = true →
      f_vmExists name (l₁ ++ (v, r) :: l₂)
        = ("", 0, if r.fault.isSome then r.fault else some r.err) := by
  intro l₁
  induction l₁ with
  | nil =>
    intro v r l₂ _ hb
    rw [List.nil_append]
    cases hf : r.fault with
    | some f => rw [f_vmExists_cons, hf]; simp [hf]
    | none =>
      have he : 0 < r.err.length := by
        unfold probeBad at hb
        rw [hf] at hb
        simp at hb
        omega
      rw [f_vmExists_cons, hf]
      simp only
      rw [if_pos he]
      simp [hf]
  | cons hd tl ih =>
    intro v r l₂ h hb
    obtain ⟨w, s⟩ := hd
    have hh := h (w, s) (List.mem_cons_self _ _)
    rw [List.cons_append, f_vmExists_skip name w s _ hh.1 hh.2]
    exact ih v r l₂ (fun q hq => h q (List.mem_cons_of_mem _ hq)) hb

/-- When every host's probe is clean and none passes the token shape test,
the search exhausts the list and reports empty host, pid 0, nil error. -/
lemma f_vmExists_clean (name : String) :
    ∀ probes : List (String × SshResult),
      (∀ q ∈ probes, probeBad q.2 = false ∧ vmTokenMatch name q.2 = false) →
      f_vmExists name probes = ("", 0, none) := by
  intro probes
  induction probes with
  | nil => intro _; rfl
  | cons hd tl ih =>
    intro h
    obtain ⟨v, r⟩ := hd
    have hh := h (v, r) (List.mem_cons_self _ _)
    rw [f_vmExists_skip name v r tl hh.1 hh.2]
    exact ih (fun q hq => h q (List.mem_cons_of_mem _ hq))

/-- A non-nil error from the search can only arise from a bad probe that no
earlier clean matching host preempted. -/
lemma f_vmExists_error_decomp (name : String) :
    ∀ probes : List (String × SshResult),
      (f_vmExists name probes).2.2.isSome →
      ∃ l₁ p l₂, probes = l₁ ++ p :: l₂ ∧ probeBad p.2 = true ∧
        ∀ q ∈ l₁, probeBad q.2 = false ∧ vmTokenMatch name q.2 = false := by
  intro probes
  induction probes with
  | nil => intro h; simp [f_vmExists] at h
  | cons hd tl ih =>
    intro h
    obtain ⟨v, r⟩ := hd
    by_cases hb : probeBad r = true
    · exact ⟨[], (v, r), tl, rfl, hb, by simp⟩
    · have hb' : probeBad r = false := by simpa using hb
      by_cases hm : vmTokenMatch name r = true
      · rw [f_vmExists_found name v r tl hb' hm] at h
        simp at h
      · have hm' : vmTokenMatch name r = false := by simpa using hm
        rw [f_vmExists_skip name v r tl hb' hm'] at h
        obtain ⟨l₁, p, l₂, hdec, hbad, hall⟩ := ih h
        refine ⟨(v, r) :: l₁, p, l₂, by rw [hdec, List.cons_append], hbad, ?_⟩
        intro q hq
        rcases List.mem_cons.mp hq with hq | hq
        · subst hq; exact ⟨hb', hm'⟩
        · exact hall q hq

/-- The search never reports a host together with a non-nil error: a non-nil
error always comes with an empty host. -/
lemma f_vmExists_shape (name : String) :
    ∀ probes : List (String × SshResult),
      (f_vmExists name probes).1 = "" ∨ (f_vmExists name probes).2.2 = none := by
  intro probes
  induction probes with
  | nil => right; rfl
  | cons hd tl ih =>
    obtain ⟨v, r⟩ := hd
    by_cases hb : probeBad r = true
    · left
      rw [show (v, r) :: tl = [] ++ (v, r) :: tl from rfl,
        f_vmExists_abort name [] v r tl (by simp) hb]
    · have hb' : probeBad r = false := by simpa using hb
      by_cases hm : vmTokenMatch name r = true
      · right
        rw [f_vmExists_found name v r tl hb' hm]
      · have hm' : vmTokenMatch name r = false := by simpa using hm
        rw [f_vmExists_skip name v r tl hb' hm']
        exact ih

/-! ## Concrete probe lists used by the claims' examples -/

/-- One hypervisor whose process listing contains the example line of the
spec, matching VM name `helloVm`. -/
def foundProbes : List (String × SshResult) :=
  [(("qh1"), ⟨"2533650 /bin/qemu -name tf-helloVm -smp 1 -m 128", "", none⟩)]

/-- First hypervisor has the name flag at token position 4 instead of 2; the
second has it at position 2. -/
def offsetProbes : List (String × SshResult) :=
  [(("qh1"), ⟨"2533650 /bin/qemu -smp 1 -name tf-helloVm -m 128", "", none⟩),
   (("qh2"), ⟨"2533650 /bin/qemu -name tf-helloVm -smp 1 -m 128", "", none⟩)]

/-- First hypervisor yields a valid match; the second hypervisor's probe
outcome is a transport fault. -/
def maskProbes : List (String × SshResult) :=
  [(("qh1"), ⟨"2533650 /bin/qemu -name tf-helloVm -smp 1 -m 128", "", none⟩),
   (("qh2"), ⟨"", "", some (("ssh: connect to host qh2: Connection refused") : String)⟩)]

/-- A matching process line whose pid token is not numeric, so `Atoi`
defaults to 0. -/
def badPidProbes : List (String × SshResult) :=
  [(("qh1"), ⟨"badpid /bin/qemu -name tf-helloVm -smp 1 -m 128", "", none⟩)]

/-- The spec's memory scenario: A with 2048 MB, B with 4096 MB, C with
1024 MB of available memory, expressed in the kB unit of the probed
`MemAvailable` lines. -/
def memProbes : List (String × SshResult) :=
  [(("A"), ⟨"MemAvailable:     2097152 kB", "", none⟩),
   (("B"), ⟨"MemAvailable:     4194304 kB", "", none⟩),
   (("C"), ⟨"MemAvailable:     1048576 kB", "", none⟩)]

/-- Two hosts tied at the maximum available memory, a third below them. -/
def tieProbes : List (String × SshResult) :=
  [(("hostA"), ⟨"MemAvailable:     300000 kB", "", none⟩),
   (("hostB"), ⟨"MemAvailable:     300000 kB", "", none⟩),
   (("hostC"), ⟨"MemAvailable:     100000 kB", "", none⟩)]

/-- C2: the source's condition `(fault != nil) && (len(hypervisor) > 0)` at
line 489 is unsatisfiable — `f_vmExists` never reports a host together with
a non-nil error — so `rsVmRead` never sets the resource identity, even when
the prober finds the VM's host with a nil error (second and third conjuncts:
a concrete found VM whose read still leaves the id unset). -/
theorem rsVmRead_never_sets_identity :
    (∀ name probes, rsVmRead name probes = (none, none)) ∧
    f_vmExists (("helloVm") : String) foundProbes = ((("qh1") : String), 2533650, none) ∧
    rsVmRead (("helloVm") : String) foundProbes = (none, none) := by
  refine ⟨?_, by decide, by decide⟩
  intro name probes
  simp only [rsVmRead]
  rw [if_neg]
  intro hc
  rcases f_vmExists_shape name probes with h | h
  · rw [h] at hc
    exact absurd hc.2 (by decide)
  · rw [h] at hc
    simp at hc

/-- C6: a clean probe is accepted exactly when token 2 is the name flag and
token 3 the derived id, with the pid taken from token 0; the spec's example
line yields pid 2533650 and a positive match, and a line with the name flag
at a different token offset is a non-match, continuing the search to the
next host. -/
theorem f_vmExists_token_matching :
    (∀ name v r rest, probeBad r = false →
        f_vmExists name ((v, r) :: rest)
          = if vmTokenMatch name r then (v, atoi ((goFields r.out).getD 0 ""), none)
            else f_vmExists name rest) ∧
    f_vmExists (("helloVm") : String) foundProbes = ((("qh1") : String), 2533650, none) ∧
    f_vmExists (("helloVm") : String) offsetProbes = ((("qh2") : String), 2533650, none) := by
  refine ⟨?_, by decide, by decide⟩
  intro name v r rest hb
  by_cases hm : vmTokenMatch name r = true
  · rw [f_vmExists_found name v r rest hb hm, if_pos hm]
  · have hm' : vmTokenMatch name r = false := by simpa using hm
    rw [f_vmExists_skip name v r rest hb hm', if_neg (by rw [hm']; exact Bool.false_ne_true)]

/-- C5 counterexample: the first host yields a valid match, the second
host's probe outcome is a transport fault; `f_vmExists` nevertheless returns
a nil error (with the match), so "some host's probe reports a fault" does
not imply a non-nil error. -/
theorem f_vmExists_match_masks_later_fault_cex :
    f_vmExists (("helloVm") : String) maskProbes = ((("qh1") : String), 2533650, none) ∧
    maskProbes.map (fun p => p.2.fault)
      = [none, some (("ssh: connect to host qh2: Connection refused") : String)] :=
  ⟨by decide, by decide⟩

/-- C5 (amended): `f_vmExists` returns a non-nil error exactly when some
host's probe reports a fault or non-empty stderr with no earlier host
yielding a valid match; it then aborts at the first such host with that
host's own error, never consulting later hosts; and when every host is
probed cleanly with no valid match it returns empty host, pid 0 and nil
error. -/
theorem f_vmExists_failfast_amended :
    (∀ name l₁ v r l₂,
        (∀ q ∈ l₁, probeBad q.2 = false ∧ vmTokenMatch name q.2 = false) →
        probeBad r = true →
        f_vmExists name (l₁ ++ (v, r) :: l₂)
          = ("", 0, if r.fault.isSome then r.fault else some r.err)) ∧
    (∀ name probes,
        (∀ q ∈ probes, probeBad q.2 = false ∧ vmTokenMatch name q.2 = false) →
        f_vmExists name probes = ("", 0, none)) ∧
    (∀ name probes, (f_vmExists name probes).2.2.isSome →
        ∃ l₁ p l₂, probes = l₁ ++ p :: l₂ ∧ probeBad p.2 = true ∧
          ∀ q ∈ l₁, probeBad q.2 = false ∧ vmTokenMatch name q.2 = false) :=
  ⟨f_vmExists_abort, f_vmExists_clean, f_vmExists_error_decomp⟩

/-! ## Hypervisor-selection lemmas -/

/-- One unfolding step of `ghScan` on a non-empty host list. -/
lemma ghScan_cons (acc : Int × String) (v : String) (r : SshResult)
    (rest : List (String × SshResult)) :
    ghScan acc ((v, r) :: rest)
      = if probeBad r then ghScan acc rest
        else if parsedKB r > acc.1 then ghScan (parsedKB r, v) rest
        else ghScan acc rest := rfl

/-- Full characterization of the `(max_avail, best_host)` scan: either no
clean probe beat the initial accumulator (which is then returned, every
clean probe's figure being at most `mx`), or the scan returns the figure and
host of the first clean probe attaining the overall maximum — every clean
probe before it is strictly below, every clean probe overall at most it, and
it strictly beats the initial accumulator. -/
lemma ghScan_spec :
    ∀ (l : List (String × SshResult)) (mx : Int) (bh : String),
      (ghScan (mx, bh) l = (mx, bh) ∧
        ∀ q ∈ l, probeBad q.2 = false → parsedKB q.2 ≤ mx) ∨
      (∃ l₁ p l₂, l = l₁ ++ p :: l₂ ∧ probeBad p.2 = false ∧
        ghScan (mx, bh) l = (parsedKB p.2, p.1) ∧ mx < parsedKB p.2 ∧
        (∀ q ∈ l₁, probeBad q.2 = false → parsedKB q.2 < parsedKB p.2) ∧
        (∀ q ∈ l, probeBad q.2 = false → parsedKB q.2 ≤ parsedKB p.2)) := by
  intro l
  induction l with
  | nil => intro mx bh; left; exact ⟨rfl, by simp⟩
  | cons hd tl ih =>
    intro mx bh
    obtain ⟨v, r⟩ := hd
    by_cases hb : probeBad r = true
    · rcases ih mx bh with ⟨heq, hall⟩ | ⟨l₁, p, l₂, hdec, hpok, heq, hlt, hfirst, hmax⟩
      · left
        refine ⟨by rw [ghScan_cons, if_pos hb]; exact heq, ?_⟩
        intro q hq hok
        rcases List.mem_cons.mp hq with hq | hq
        · subst hq; rw [hb] at hok; exact absurd hok (by simp)
        · exact hall q hq hok
      · right
        refine ⟨(v, r) :: l₁, p, l₂, by rw [hdec, List.cons_append], hpok,
          by rw [ghScan_cons, if_pos hb]; exact heq, hlt, ?_, ?_⟩
        · intro q hq hok
          rcases List.mem_cons.mp hq with hq | hq
          · subst hq; rw [hb] at hok; exact absurd hok (by simp)
          · exact hfirst q hq hok
        · intro q hq hok
          rcases List.mem_cons.mp hq with hq | hq
          · subst hq; rw [hb] at hok; exact absurd hok (by simp)
          · exact hmax q hq hok
    · have hb' : probeBad r = false := by simpa using hb
      by_cases hgt : parsedKB r > mx
      · rcases ih (parsedKB r) v with ⟨heq, hall⟩ | ⟨l₁, p, l₂, hdec, hpok, heq, hlt, hfirst, hmax⟩
        · right
          refine ⟨[], (v, r), tl, by simp, hb',
            by rw [ghScan_cons, if_neg (by rw [hb']; exact Bool.false_ne_true), if_pos hgt]; exact heq,
            hgt, by simp, ?_⟩
          intro q hq hok
          rcases List.mem_cons.mp hq with hq | hq
          · subst hq; exact le_refl _
          · exact hall q hq hok
        · right
          refine ⟨(v, r) :: l₁, p, l₂, by rw [hdec, List.cons_append], hpok,
            by rw [ghScan_cons, if_neg (by rw [hb']; exact Bool.false_ne_true), if_pos hgt]; exact heq,
            lt_trans hgt hlt, ?_, ?_⟩
          · intro q hq hok
            rcases List.mem_cons.mp hq with hq | hq
            · subst hq; exact hlt
            · exact hfirst q hq hok
          · intro q hq hok
            rcases List.mem_cons.mp hq with hq | hq
            · subst hq; exact le_of_lt hlt
            · exact hmax q hq hok
      · have hle : parsedKB r ≤ mx := not_lt.mp hgt
        rcases ih mx bh with ⟨heq, hall⟩ | ⟨l₁, p, l₂, hdec, hpok, heq, hlt, hfirst, hmax⟩
        · left
          refine ⟨by rw [ghScan_cons, if_neg (by rw [hb']; exact Bool.false_ne_true), if_neg hgt]; exact heq, ?_⟩
          intro q hq hok
          rcases List.mem_cons.mp hq with hq | hq
          · subst hq; exact hle
          · exact hall q hq hok
        · right
          refine ⟨(v, r) :: l₁, p, l₂, by rw [hdec, List.cons_append], hpok,
            by rw [ghScan_cons, if_neg (by rw [hb']; exact Bool.false_ne_true), if_neg hgt]; exact heq,
            hlt, ?_, ?_⟩
          · intro q hq hok
            rcases List.mem_cons.mp hq with hq | hq
            · subst hq; exact lt_of_le_of_lt hle hlt
            · exact hfirst q hq hok
          · intro q hq hok
            rcases List.mem_cons.mp hq with hq | hq
            · subst hq; exact le_trans hle (le_of_lt hlt)
            · exact hmax q hq hok

/-- C4: a host is returned only when its probed available memory, converted
to MB by the integer division by 1024, strictly exceeds the requirement;
when every cleanly probed host's converted figure is at most the requirement
(failed probes being skipped), the empty string is returned; and the spec's
scenario {A: 2048 MB, B: 4096 MB, C: 1024 MB} with requirement 1500 MB
selects B. -/
theorem f_getHypervisor_capacity_policy :
    (∀ mem_mb probes, f_getHypervisor mem_mb probes ≠ "" →
        ∃ p ∈ probes, p.1 = f_getHypervisor mem_mb probes ∧ probeBad p.2 = false ∧
          mem_mb < parsedKB p.2 / 1024) ∧
    (∀ mem_mb probes,
        (∀ q ∈ probes, probeBad q.2 = false → parsedKB q.2 / 1024 ≤ mem_mb) →
        f_getHypervisor mem_mb probes = "") ∧
    f_getHypervisor 1500 memProbes = (("B") : String) := by
  refine ⟨?_, ?_, by decide⟩
  · intro mem_mb probes hne
    simp only [f_getHypervisor] at hne ⊢
    rcases ghScan_spec probes 0 "" with ⟨heq, _⟩ | ⟨l₁, p, l₂, hdec, hok, heq, _, _, _⟩
    · rw [heq] at hne
      exact absurd (by split <;> rfl) hne
    · rw [heq] at hne ⊢
      by_cases hc : parsedKB p.2 / 1024 > mem_mb
      · refine ⟨p, by rw [hdec]; exact List.mem_append_right _ (List.mem_cons_self _ _),
          ?_, hok, hc⟩
        rw [if_pos hc]
      · rw [if_neg hc] at hne
        exact absurd rfl hne
  · intro mem_mb probes hall
    simp only [f_getHypervisor]
    rcases ghScan_spec probes 0 "" with ⟨heq, _⟩ | ⟨l₁, p, l₂, hdec, hok, heq, _, _, _⟩
    · rw [heq]
      split <;> rfl
    · rw [heq]
      rw [if_neg]
      exact not_lt.mpr (hall p (by rw [hdec]; exact List.mem_append_right _ (List.mem_cons_self _ _)) hok)

/-- C8: with every probe successful, whenever a host is returned it is the
first host in configured order attaining the maximum probed figure — every
earlier host is strictly below it, so a later host with an equal figure
never replaces it; concretely, with hostA and hostB tied at the maximum,
hostA is selected. -/
theorem f_getHypervisor_tiebreak_first :
    (∀ mem_mb probes, (∀ q ∈ probes, probeBad q.2 = false) →
        f_getHypervisor mem_mb probes ≠ "" →
        ∃ l₁ p l₂, probes = l₁ ++ p :: l₂ ∧ f_getHypervisor mem_mb probes = p.1 ∧
          (∀ q ∈ probes, parsedKB q.2 ≤ parsedKB p.2) ∧
          (∀ q ∈ l₁, parsedKB q.2 < parsedKB p.2)) ∧
    f_getHypervisor 100 tieProbes = (("hostA") : String) := by
  refine ⟨?_, by decide⟩
  intro mem_mb probes hallok hne
  simp only [f_getHypervisor] at hne ⊢
  rcases ghScan_spec probes 0 "" with ⟨heq, _⟩ | ⟨l₁, p, l₂, hdec, hok, heq, hlt, hfirst, hmax⟩
  · rw [heq] at hne
    exact absurd (by split <;> rfl) hne
  · rw [heq] at hne ⊢
    by_cases hc : parsedKB p.2 / 1024 > mem_mb
    · refine ⟨l₁, p, l₂, hdec, by rw [if_pos hc], ?_, ?_⟩
      · intro q hq
        exact hmax q hq (hallok q hq)
      · intro q hq
        exact hfirst q hq (hallok q (by rw [hdec]; exact List.mem_append_left _ hq))
    · rw [if_neg hc] at hne
      exact absurd rfl hne

/-- C10: a kill command is issued only when the located pid is strictly
greater than 1; when the prober reports a pid of 0 or 1 no kill is ever sent
and the not-found error is returned instead — concretely, a matching process
line whose pid token fails integer parsing yields pid 0, no kill, and the
not-found error. -/
theorem rsVmDelete_pid_guard :
    (∀ name probes killRes, (rsVmDelete name probes killRes).2 ≠ [] →
        1 < (f_vmExists name probes).2.1) ∧
    (∀ name probes killRes, (f_vmExists name probes).2.1 ≤ 1 →
        rsVmDelete name probes killRes
          = (some ((("Could not locate VM and pid of ") : String) ++ name), [])) ∧
    f_vmExists (("helloVm") : String) badPidProbes = ((("qh1") : String), 0, none) ∧
    rsVmDelete (("helloVm") : String) badPidProbes ⟨"", "", none⟩
      = (some (("Could not locate VM and pid of helloVm") : String), []) := by
  refine ⟨?_, ?_, by decide, by decide⟩
  · intro name probes killRes h
    simp only [rsVmDelete] at h
    by_cases hc : 0 < (f_vmExists name probes).1.length ∧
        1 < (f_vmExists name probes).2.1 ∧ (f_vmExists name probes).2.2 = none
    · exact hc.2.1
    · rw [if_neg hc] at h
      exact absurd rfl h
  · intro name probes killRes h
    simp only [rsVmDelete]
    rw [if_neg]
    intro hc
    exact absurd hc.2.1 (not_lt.mpr h)

end RbdQemu
